import Mathlib

/-!
Shallow embedding of the ranking and download logic of
src/extensions/library-genesis/src/utils/books.ts, together with proofs of the
behavioural properties stated in the specification of that module.

Conventions used by the embedding:
- JavaScript strings are Lean `String` values (in this toolchain a `String` is a
  packed `List Char`, so all string operations below are executable and reduce
  in the kernel).
- The stable `Array.prototype.sort` (stability is mandated by ECMAScript 2019)
  called with the comparator `(a, b) => weightB - weightA` is modelled by
  `List.insertionSort` with the relation `fun a b => weight b ≤ weight a`:
  a stable sort that orders a list by descending weight is uniquely determined
  by stability, so insertion sort is an exact model of the observable result.
- The filesystem visible to `buildFileName` is modelled by the Boolean
  predicate `ex : String → Bool` telling whether a file of the given name
  already exists in the target directory (the source probes
  `fse.existsSync(join(path, name))`).
- The effectful download orchestration is modelled as a pure function from the
  outcome of its effectful collaborators (the fetch result, the synchronous
  file write, the folder picker) to the ordered list of user-visible events it
  emits. Exceptions thrown by collaborators are `JsError` values; the fact
  that the Lean functions are total and return a plain event list embeds the
  propagation policy that nothing escapes to the caller.
-/

/-- Modelled from the spec: ASCII lowercasing of one character, used by the
Attribute Parser and by the `toLowerCase()` calls of books.ts. -/
def charToLower (c : Char) : Char :=
  if 'A' ≤ c ∧ c ≤ 'Z' then Char.ofNat (c.toNat + 32) else c

/-- Modelled from the spec: splitting a character sequence on the comma
delimiter used by the preference strings and multi-valued book attributes. -/
def splitOnComma : List Char → List (List Char)
  | [] => [[]]
  | c :: cs =>
    match splitOnComma cs with
    | [] => [[c]]
    | t :: ts => if c = ',' then [] :: t :: ts else (c :: t) :: ts

/-- Modelled from the spec: trimming the whitespace around one token. -/
def trimChars (l : List Char) : List Char :=
  ((l.dropWhile Char.isWhitespace).reverse.dropWhile Char.isWhitespace).reverse

/-- Modelled from the spec: the Attribute Parser `parseLowerCaseArray` of
utils/common.ts (a file not present under src/). Per spec section 4.1 it turns
a raw string into the ordered sequence of non-empty lowercase tokens obtained
by splitting on the delimiter and trimming whitespace; an empty or
whitespace-only input yields the empty sequence. -/
def parseLowerCaseArray (s : String) : List String :=
  (((splitOnComma s.data).map (fun t => (trimChars t).map charToLower)).filter
    (fun t => t ≠ [])).map String.mk

/-- ASCII model of the JavaScript `toLowerCase()` string method. -/
def lowerAscii (s : String) : String :=
  String.mk (s.data.map charToLower)

/-- A supported language as exposed by utils/constants.ts: only its canonical
name matters to books.ts. -/
structure SupportedLanguage where
  name : String
deriving DecidableEq

/-- Modelled from the spec: the fixed supported-languages reference set
`languages` of utils/constants.ts (a file not present under src/). The spec
fixes no full contents; the scenario of spec section 8 requires English and
French to be supported, and German appears as a book language there. -/
def languages : List SupportedLanguage :=
  [⟨"English"⟩, ⟨"French"⟩, ⟨"German"⟩]

/-- The book record handled by books.ts (fields used there, per spec section
3). A missing optional `year` is the empty string, the falsy value the source
tests with `year && ...`. -/
structure BookEntry where
  title : String
  author : String
  year : String
  language : String
  extension : String
  downloadUrl : String
deriving DecidableEq

/-- Weight table built by the `forEach` loops of books.ts lines 50-52 and
75-77: starting from the empty JavaScript object (lookup of an absent key
gives weight 0, matching the `in` checks of lines 59, 62, 84, 87), the token
at position `i` of the list is assigned weight `length - i`, later assignments
overwriting earlier ones exactly as property writes do. -/
def buildWeightTable (tokens : List String) : String → Nat :=
  tokens.enum.foldl (fun tbl p => fun s => if s = p.2 then tokens.length - p.1 else tbl s)
    (fun _ => 0)

/-- Lines 41-46 of books.ts: the preference string is parsed and then filtered
to the tokens that name a supported language (case-insensitive). -/
def filteredPreferredLanguageList (preferredLanguages : String) : List String :=
  (parseLowerCaseArray preferredLanguages).filter
    (fun pl => (languages.map (fun l => lowerAscii l.name)).contains pl)

/-- Lines 48-52 of books.ts: the language weight table, built from the
filtered preference list. -/
def languageWeights (preferredLanguages : String) : String → Nat :=
  buildWeightTable (filteredPreferredLanguageList preferredLanguages)

/-- Lines 57-62 of books.ts: a book may carry several languages; its score is
the sum of the table weights of all its parsed language tokens (absent tokens
contribute 0). -/
def bookLanguageWeight (preferredLanguages : String) (b : BookEntry) : Nat :=
  ((parseLowerCaseArray b.language).map (languageWeights preferredLanguages)).foldl
    (fun p c => p + c) 0

/-- Lines 39-68 of books.ts: stable in-place sort of the books by descending
language score; the comparator `weightB - weightA` together with the
stability of `Array.prototype.sort` is modelled by a stable insertion sort
with the relation `weight b ≤ weight a`. -/
def sortBooksByPreferredLanguages (books : List BookEntry) (preferredLanguages : String) :
    List BookEntry :=
  List.insertionSort
    (fun a b => bookLanguageWeight preferredLanguages b ≤ bookLanguageWeight preferredLanguages a)
    books

/-- Lines 72-77 of books.ts: the format weight table is built from the parsed
preference list with no allow-list filtering. -/
def formatWeights (preferredFormats : String) : String → Nat :=
  buildWeightTable (parseLowerCaseArray preferredFormats)

/-- Lines 83 and 86 of books.ts: `extension.replace(/[\W_]+/g, "")` deletes
every character outside `[A-Za-z0-9]` (the class `\W` is the complement of
`[A-Za-z0-9_]` and the underscore is removed as well). -/
def cleanExtension (s : String) : String :=
  String.mk (s.data.filter (fun c => c.isAlphanum))

/-- Lines 83-87 of books.ts: the format score of a book is the single table
lookup of its cleaned extension (absent token gives 0). -/
def bookFormatWeight (preferredFormats : String) (b : BookEntry) : Nat :=
  formatWeights preferredFormats (cleanExtension b.extension)

/-- Lines 70-93 of books.ts: stable in-place sort of the books by descending
format score, modelled like the language sort. -/
def sortBooksByPreferredFileFormats (books : List BookEntry) (preferredFormats : String) :
    List BookEntry :=
  List.insertionSort
    (fun a b => bookFormatWeight preferredFormats b ≤ bookFormatWeight preferredFormats a)
    books

/-- Line 96 of books.ts: `replace(/\//g, "")`, deleting every forward slash. -/
def removeSlashes (s : String) : String :=
  String.mk (s.data.filter (fun c => c ≠ '/'))

/-- Lines 95-97 of books.ts: the base file name
`author - title` followed by ` (year)` when `year` is truthy (non-empty), with
all forward slashes removed afterwards. -/
def fileNameFromBookEntry (b : BookEntry) : String :=
  removeSlashes
    (b.author ++ " - " ++ b.title ++ (if b.year = "" then "" else " (" ++ b.year ++ ")"))

/-- Lines 99-102 of books.ts: the base name with the lowercased extension. -/
def fileNameWithExtensionFromBookEntry (b : BookEntry) : String :=
  fileNameFromBookEntry b ++ "." ++ lowerAscii b.extension

/-- The candidate file names probed by `buildFileName` (books.ts lines
104-122), in probe order: candidate 0 is `name.ext`, candidate `k` for
`k ≥ 1` is `name-(k+1).ext` (the loop index starts at 2). -/
def candidateName (name extension : String) (k : Nat) : String :=
  if k = 0 then name ++ "." ++ extension
  else name ++ "-" ++ toString (k + 1) ++ "." ++ extension

/-- Lines 104-122 of books.ts: return the first candidate name that does not
already exist in the target directory. The source loop is `while (true)`; the
hypothesis `h` states that some candidate is free, which is exactly the
condition under which the loop terminates, and `Nat.find` picks the first
free probe just as the loop does. -/
def buildFileName (ex : String → Bool) (name extension : String)
    (h : ∃ k, ex (candidateName name extension k) = false) : String :=
  candidateName name extension (Nat.find h)

/-- A JavaScript exception as discriminated by books.ts lines 164 and 253:
whether it is a node-fetch `FetchError`, its `code` and its `message`. -/
structure JsError where
  isFetchError : Bool
  code : String
  message : String
deriving DecidableEq

/-- One user-visible effect of a download operation, in emission order. -/
inductive DlEvent where
  | progressToast (title : String)
  | fetchIssued (url : String)
  | fileWritten (path : String)
  | successToast (message : String)
  | failureToast (title : String) (message : String)
deriving DecidableEq

/-- The remediation message of books.ts lines 168 and 257. -/
def certExpiredMessage : String :=
  "The certificate has expired. Try with a different download gateway or enable \x27Ignore HTTPS Errors\x27 in your settings."

/-- Lines 163-174 and 252-263 of books.ts: the single failure notification
produced from a caught error. An expired-certificate `FetchError` gets the
remediation message; every other error gets the generic report carrying the
underlying message. -/
def failureEvent (e : JsError) : DlEvent :=
  if e.isFetchError && e.code == "CERT_HAS_EXPIRED" then
    DlEvent.failureToast "Download Failed" certExpiredMessage
  else
    DlEvent.failureToast "Download Failed" e.message

/-- The first error raised inside the try block of a download operation: a
fetch rejection pre-empts the file write, whose own failure comes second. -/
def firstError (fetchResult : Except JsError Nat) (writeResult : Option JsError) :
    Option JsError :=
  match fetchResult with
  | Except.error e => some e
  | Except.ok _ => writeResult

/-- Recognizes the failure notifications among the emitted events. -/
def isFailureToast : DlEvent → Bool
  | DlEvent.failureToast _ _ => true
  | _ => false

/-- Lines 124-175 of books.ts, as a pure function from the outcomes of the
effectful collaborators to the emitted events. `ex` is the existence
predicate of the configured download directory, `fetchResult` the outcome of
the binary fetch (payload size on success, thrown error on rejection) and
`writeResult` the outcome of `writeFileSync` (`some e` when it throws). The
catch block of lines 163-174 turns any error into exactly one failure toast,
so the function is total: nothing propagates to the caller. -/
def downloadBookToDefaultDirectory (url : String) (book : BookEntry) (downloadPath : String)
    (ex : String → Bool) (fetchResult : Except JsError Nat) (writeResult : Option JsError)
    (h : ∃ k, ex (candidateName (fileNameFromBookEntry book) (lowerAscii book.extension) k) = false) :
    List DlEvent :=
  let fileName := buildFileName ex (fileNameFromBookEntry book) (lowerAscii book.extension) h
  let filePath := downloadPath ++ "/" ++ fileName
  DlEvent.progressToast "Downloading..." ::
    match fetchResult with
    | Except.error e => [DlEvent.fetchIssued url, failureEvent e]
    | Except.ok _ =>
      match writeResult with
      | some e => [DlEvent.fetchIssued url, failureEvent e]
      | none =>
        [DlEvent.fetchIssued url, DlEvent.fileWritten filePath,
          DlEvent.successToast ("Saved to " ++ downloadPath)]

/-- Lines 209-264 of books.ts: like the default-directory download, but the
directory comes from the external folder picker (`chosenFolder`, `none` on
cancellation; the source guard `if (!outputFolder) return` also treats the
falsy empty string as a cancellation). When the picker yields no folder the
operation stops before the progress toast, the fetch and the write. -/
def downloadBookToLocation (url : String) (book : BookEntry) (chosenFolder : Option String)
    (ex : String → Bool) (fetchResult : Except JsError Nat) (writeResult : Option JsError)
    (h : ∃ k, ex (candidateName (fileNameFromBookEntry book) (lowerAscii book.extension) k) = false) :
    List DlEvent :=
  match chosenFolder with
  | none => []
  | some outputFolder =>
    if outputFolder = "" then []
    else
      let fileName := buildFileName ex (fileNameFromBookEntry book) (lowerAscii book.extension) h
      let filePath := outputFolder ++ "/" ++ fileName
      DlEvent.progressToast "Downloading..." ::
        match fetchResult with
        | Except.error e => [DlEvent.fetchIssued url, failureEvent e]
        | Except.ok _ =>
          match writeResult with
          | some e => [DlEvent.fetchIssued url, failureEvent e]
          | none =>
            [DlEvent.fetchIssued url, DlEvent.fileWritten filePath,
              DlEvent.successToast ("Saved to " ++ fileName)]

/-- Written from the wording of the spec, for comparison with the source: a
valid single path segment on all platforms supported by the download flow
(books.ts drives both the macOS and the Windows folder picker) contains
neither the POSIX separator `/` nor the Windows separator `\`. -/
def singlePathSegmentOnSupportedPlatforms (s : String) : Prop :=
  '/' ∉ s.data ∧ '\\' ∉ s.data

/-! ### Weight table lemmas -/

theorem enum_map_snd_eq {α : Type} (l : List α) : l.enum.map Prod.snd = l :=
  List.enumFrom_map_snd 0 l

theorem weightFold_not_mem (N : Nat) (ps : List (Nat × String)) (tbl : String → Nat)
    (s : String) (h : s ∉ ps.map Prod.snd) :
    ps.foldl (fun tbl p => fun x => if x = p.2 then N - p.1 else tbl x) tbl s = tbl s := by
  induction ps generalizing tbl with
  | nil => rfl
  | cons p rest ih =>
    simp only [List.map_cons, List.mem_cons, not_or] at h
    rw [List.foldl_cons, ih _ h.2]
    simp [h.1]

theorem weightFold_last_assignment (N : Nat) (ps1 ps2 : List (Nat × String))
    (p : Nat × String) (tbl : String → Nat) (h : p.2 ∉ ps2.map Prod.snd) :
    (ps1 ++ p :: ps2).foldl (fun tbl q => fun x => if x = q.2 then N - q.1 else tbl x) tbl p.2
      = N - p.1 := by
  rw [List.foldl_append, List.foldl_cons, weightFold_not_mem N ps2 _ _ h]
  simp

theorem buildWeightTable_absent (tokens : List String) (s : String) (h : s ∉ tokens) :
    buildWeightTable tokens s = 0 := by
  unfold buildWeightTable
  apply weightFold_not_mem
  rw [enum_map_snd_eq tokens]
  exact h

theorem buildWeightTable_get (tokens : List String) (hnd : tokens.Nodup) (i : Nat)
    (hi : i < tokens.length) :
    buildWeightTable tokens (tokens.get ⟨i, hi⟩) = tokens.length - i := by
  have hl : i < tokens.enum.length := by simpa [List.enum_length] using hi
  have hmem : (i, tokens.get ⟨i, hi⟩) ∈ tokens.enum := by
    have hg := List.getElem_mem hl
    rw [List.getElem_enum] at hg
    simpa [List.get_eq_getElem] using hg
  obtain ⟨ps1, ps2, hsplit⟩ := List.append_of_mem hmem
  have hsnd := enum_map_snd_eq tokens
  rw [hsplit, List.map_append, List.map_cons] at hsnd
  have hnd2 : (ps1.map Prod.snd ++ tokens.get ⟨i, hi⟩ :: ps2.map Prod.snd).Nodup := by
    rw [hsnd]; exact hnd
  have hnotmem : tokens.get ⟨i, hi⟩ ∉ ps2.map Prod.snd :=
    (List.nodup_cons.mp hnd2.of_append_right).1
  unfold buildWeightTable
  rw [hsplit]
  exact weightFold_last_assignment tokens.length ps1 ps2 (i, tokens.get ⟨i, hi⟩) _ hnotmem

/-- C1 counterexample: the claim quantifies over every preference token list,
but for the token list ["english", "english"] (length N = 2, token at
position 0 equal to "english") the weight table maps the token at position 0
to 1, not to N - 0 = 2: the second `forEach` assignment of books.ts line 51
overwrites the first, so duplicate tokens break the claimed
position-to-weight law. Such a list does arise: it is the filtered
preference list of the preference string "english, english". -/
theorem weightTable_duplicate_counterexample :
    buildWeightTable ["english", "english"]
        ((["english", "english"] : List String).get ⟨0, by decide⟩) = 1
    ∧ ¬ buildWeightTable ["english", "english"]
        ((["english", "english"] : List String).get ⟨0, by decide⟩) = 2 - 0
    ∧ filteredPreferredLanguageList "english, english" = ["english", "english"]
    ∧ languageWeights "english, english" "english" = 1 := by
  decide

/-- C1 (amended to token lists without duplicate tokens): the weight table
built from a duplicate-free token list of length N maps the token at position
i to N - i, weights strictly decrease with position (hence no two distinct
positions share a weight), every token absent from the list has weight 0, and
the language table is built from the supported-language filtering of the
parsed preference list (so filtering happens before any weight is assigned
and N is the filtered length) while the format table is built from the parsed
list unfiltered. -/
theorem weightTable_position_weights (tokens : List String) (hnd : tokens.Nodup)
    (i j : Nat) (hi : i < tokens.length) (hj : j < tokens.length) (hij : i < j)
    (s : String) (hs : s ∉ tokens) :
    buildWeightTable tokens (tokens.get ⟨i, hi⟩) = tokens.length - i
    ∧ buildWeightTable tokens (tokens.get ⟨j, hj⟩) < buildWeightTable tokens (tokens.get ⟨i, hi⟩)
    ∧ buildWeightTable tokens s = 0
    ∧ languageWeights = (fun p => buildWeightTable (filteredPreferredLanguageList p))
    ∧ formatWeights = (fun p => buildWeightTable (parseLowerCaseArray p)) := by
  refine ⟨buildWeightTable_get tokens hnd i hi, ?_, buildWeightTable_absent tokens s hs, rfl, rfl⟩
  rw [buildWeightTable_get tokens hnd i hi, buildWeightTable_get tokens hnd j hj]
  omega

/-- Witness for the amended C1 theorem at the concrete duplicate-free token
list ["french", "english"], positions 0 and 1, absent token "german". -/
theorem weightTable_position_weights_witness :
    (["french", "english"] : List String).Nodup
    ∧ (0 : Nat) < 2 ∧ (1 : Nat) < 2 ∧ (0 : Nat) < 1
    ∧ "german" ∉ (["french", "english"] : List String)
    ∧ (buildWeightTable ["french", "english"]
          ((["french", "english"] : List String).get ⟨0, by decide⟩)
        = (["french", "english"] : List String).length - 0
      ∧ buildWeightTable ["french", "english"]
          ((["french", "english"] : List String).get ⟨1, by decide⟩)
        < buildWeightTable ["french", "english"]
          ((["french", "english"] : List String).get ⟨0, by decide⟩)
      ∧ buildWeightTable ["french", "english"] "german" = 0
      ∧ languageWeights = (fun p => buildWeightTable (filteredPreferredLanguageList p))
      ∧ formatWeights = (fun p => buildWeightTable (parseLowerCaseArray p))) :=
  ⟨by decide, by decide, by decide, by decide, by decide,
    weightTable_position_weights ["french", "english"] (by decide) 0 1 (by decide) (by decide)
      (by decide) "german" (by decide)⟩

/-! ### Language ranking scenario -/

theorem foldl_add_eq_sum (l : List Nat) (n : Nat) : l.foldl (fun p c => p + c) n = n + l.sum := by
  induction l generalizing n with
  | nil => simp
  | cons a l ih => simp [ih]; omega

/-- C3: the language score of a book is the sum of the weight-table weights of
all tokens parsed from its possibly multi-valued language attribute, and on
the spec scenario (preferences "French, English"; books with languages
"English", "French, English", "German" in that input order) the scores are 1,
3 and 0 and the output order is the French+English book, then the English
book, then the German book. -/
theorem languageRanking_scenario :
    (∀ (p : String) (b : BookEntry),
      bookLanguageWeight p b = ((parseLowerCaseArray b.language).map (languageWeights p)).sum)
    ∧ bookLanguageWeight "French, English" ⟨"b1", "a1", "", "English", "pdf", ""⟩ = 1
    ∧ bookLanguageWeight "French, English" ⟨"b2", "a2", "", "French, English", "pdf", ""⟩ = 3
    ∧ bookLanguageWeight "French, English" ⟨"b3", "a3", "", "German", "pdf", ""⟩ = 0
    ∧ sortBooksByPreferredLanguages
        [⟨"b1", "a1", "", "English", "pdf", ""⟩,
         ⟨"b2", "a2", "", "French, English", "pdf", ""⟩,
         ⟨"b3", "a3", "", "German", "pdf", ""⟩] "French, English"
      = [⟨"b2", "a2", "", "French, English", "pdf", ""⟩,
         ⟨"b1", "a1", "", "English", "pdf", ""⟩,
         ⟨"b3", "a3", "", "German", "pdf", ""⟩] := by
  refine ⟨fun p b => ?_, by decide, by decide, by decide, by decide⟩
  unfold bookLanguageWeight
  rw [foldl_add_eq_sum]
  omega

/-! ### Stability of the ranking -/

theorem filter_orderedInsert {α : Type} (f : α → Nat) (w : Nat) (a : α) (l : List α) :
    (List.orderedInsert (fun x y => f y ≤ f x) a l).filter (fun b => f b == w)
      = if f a == w then a :: l.filter (fun b => f b == w)
        else l.filter (fun b => f b == w) := by
  rw [List.orderedInsert_eq_take_drop]
  by_cases h : f a = w
  · have htw : ((l.takeWhile fun b => ¬ f b ≤ f a).filter (fun b => f b == w)) = [] := by
      rw [List.filter_eq_nil_iff]
      intro x hx
      have hq := List.mem_takeWhile_imp hx
      simp only [decide_eq_true_eq] at hq
      simp only [beq_iff_eq]
      omega
    rw [List.filter_append, htw, List.filter_cons]
    have hfl : l.filter (fun b => f b == w)
        = ((l.takeWhile fun b => ¬ f b ≤ f a) ++ (l.dropWhile fun b => ¬ f b ≤ f a)).filter
            (fun b => f b == w) := by
      rw [List.takeWhile_append_dropWhile]
    rw [if_pos (by simpa using h), hfl, List.filter_append, htw]
    simp [h]
  · rw [List.filter_append, List.filter_cons]
    have hfl : l.filter (fun b => f b == w)
        = ((l.takeWhile fun b => ¬ f b ≤ f a) ++ (l.dropWhile fun b => ¬ f b ≤ f a)).filter
            (fun b => f b == w) := by
      rw [List.takeWhile_append_dropWhile]
    rw [if_neg (by simpa using h), hfl, List.filter_append]
    simp [h]

theorem filter_insertionSort {α : Type} (f : α → Nat) (w : Nat) (l : List α) :
    (List.insertionSort (fun x y => f y ≤ f x) l).filter (fun b => f b == w)
      = l.filter (fun b => f b == w) := by
  induction l with
  | nil => rfl
  | cons a l ih =>
    simp only [List.insertionSort]
    rw [filter_orderedInsert f w a (List.insertionSort _ l), ih, List.filter_cons]

theorem languageWeights_empty (s : String) : languageWeights "" s = 0 := by
  have h : filteredPreferredLanguageList "" = [] := rfl
  unfold languageWeights
  rw [h]
  rfl

theorem bookLanguageWeight_empty (b : BookEntry) : bookLanguageWeight "" b = 0 := by
  unfold bookLanguageWeight
  rw [foldl_add_eq_sum, Nat.zero_add, List.sum_eq_zero]
  intro x hx
  obtain ⟨t, ht, rfl⟩ := List.mem_map.mp hx
  exact languageWeights_empty t

theorem bookFormatWeight_empty (b : BookEntry) : bookFormatWeight "" b = 0 := rfl

/-- C2: both ranking operations are stable. For every book collection, every
preference string and every weight value w, the subsequence of books whose
computed weight is w is unchanged by the sort, so any two books of equal
weight keep their relative input order; and with the empty preference string
every weight is 0 and the collection comes back in its original order. -/
theorem sortBooks_stable (books : List BookEntry) (prefs : String) (w : Nat) :
    (sortBooksByPreferredLanguages books prefs).filter
        (fun b => bookLanguageWeight prefs b == w)
      = books.filter (fun b => bookLanguageWeight prefs b == w)
    ∧ (sortBooksByPreferredFileFormats books prefs).filter
        (fun b => bookFormatWeight prefs b == w)
      = books.filter (fun b => bookFormatWeight prefs b == w)
    ∧ sortBooksByPreferredLanguages books "" = books
    ∧ sortBooksByPreferredFileFormats books "" = books := by
  refine ⟨filter_insertionSort (bookLanguageWeight prefs) w books,
    filter_insertionSort (bookFormatWeight prefs) w books, ?_, ?_⟩
  · apply List.Sorted.insertionSort_eq
    apply List.pairwise_of_forall
    intro a b
    rw [bookLanguageWeight_empty, bookLanguageWeight_empty]
  · apply List.Sorted.insertionSort_eq
    apply List.pairwise_of_forall
    intro a b
    rw [bookFormatWeight_empty, bookFormatWeight_empty]

/-- C9: each ranking operation returns a permutation of its input collection
made of the very same book entries, so no field of any entry is modified and
only the order changes. In the source the permutation is realized in place on
the argument array, which `Array.prototype.sort` also returns, so callers can
chain on the same reference; the pure embedding renders that contract as the
output being exactly this permutation of the input entries. -/
theorem sortBooks_permutation (books : List BookEntry) (prefs : String) :
    (sortBooksByPreferredLanguages books prefs).Perm books
    ∧ (sortBooksByPreferredFileFormats books prefs).Perm books :=
  ⟨List.perm_insertionSort _ books, List.perm_insertionSort _ books⟩

/-! ### File name construction -/

theorem removeSlashes_of_not_mem (s : String) (h : '/' ∉ s.data) : removeSlashes s = s := by
  unfold removeSlashes
  apply String.ext
  show s.data.filter (fun c => c ≠ '/') = s.data
  rw [List.filter_eq_self]
  intro a ha
  simp only [ne_eq, decide_eq_true_eq]
  exact fun heq => h (heq ▸ ha)

theorem not_slash_append (s t : String) (hs : '/' ∉ s.data) (ht : '/' ∉ t.data) :
    '/' ∉ (s ++ t).data := by
  rw [String.data_append]
  simp [List.mem_append, hs, ht]

theorem fileNameFromBookEntry_no_slash (b : BookEntry) :
    '/' ∉ (fileNameFromBookEntry b).data := by
  unfold fileNameFromBookEntry removeSlashes
  simp [List.mem_filter]

/-- C4 counterexample: the code strips only the forward slash, so on the
Windows platform (which the download flow of books.ts supports through its
win32 folder picker) a backslash in the author field survives into the file
name, and the result is not a valid single path segment on all supported
platforms: the claim as stated fails for author `A\B`, title `C`, no year. -/
theorem fileName_windows_separator_counterexample :
    fileNameFromBookEntry ⟨"C", "A\\B", "", "", "pdf", ""⟩ = "A\\B - C"
    ∧ ¬ singlePathSegmentOnSupportedPlatforms
        (fileNameFromBookEntry ⟨"C", "A\\B", "", "", "pdf", ""⟩) := by
  constructor
  · decide
  · unfold singlePathSegmentOnSupportedPlatforms
    decide

/-- C4 (amended: only forward-slash characters are stripped, so the result is
a valid single path segment on the POSIX platforms; a Windows backslash is
not removed, see the counterexample): for every book whose author, title and
year contain no forward slash, the file base name is author - title, followed
by the year in parentheses exactly when the optional year is present (nothing
extra otherwise); every forward slash is removed from the result for every
book, and author `A/B` with title `C` and no year yields exactly `AB - C`. -/
theorem fileNameFromBookEntry_spec (b : BookEntry)
    (hA : '/' ∉ b.author.data) (hT : '/' ∉ b.title.data) (hY : '/' ∉ b.year.data) :
    (b.year = "" → fileNameFromBookEntry b = b.author ++ " - " ++ b.title)
    ∧ (b.year ≠ "" →
        fileNameFromBookEntry b = b.author ++ " - " ++ b.title ++ " (" ++ b.year ++ ")")
    ∧ (∀ c : BookEntry, '/' ∉ (fileNameFromBookEntry c).data)
    ∧ fileNameFromBookEntry ⟨"C", "A/B", "", "", "pdf", ""⟩ = "AB - C" := by
  refine ⟨?_, ?_, fileNameFromBookEntry_no_slash, by decide⟩
  · intro hy
    unfold fileNameFromBookEntry
    rw [hy, if_pos rfl]
    have he : b.author ++ " - " ++ b.title ++ "" = b.author ++ " - " ++ b.title := by
      apply String.ext
      simp [String.data_append]
    rw [he]
    exact removeSlashes_of_not_mem _
      (not_slash_append _ _ (not_slash_append _ _ hA (by decide)) hT)
  · intro hy
    unfold fileNameFromBookEntry
    rw [if_neg hy]
    have hclean : '/' ∉ (b.author ++ " - " ++ b.title ++ (" (" ++ b.year ++ ")")).data :=
      not_slash_append _ _ (not_slash_append _ _ (not_slash_append _ _ hA (by decide)) hT)
        (not_slash_append _ _ (not_slash_append _ _ (by decide) hY) (by decide))
    rw [removeSlashes_of_not_mem _ hclean]
    apply String.ext
    simp [String.data_append, List.append_assoc]

/-- Witness for the amended C4 theorem at a book with a year and at a book
without one. -/
theorem fileNameFromBookEntry_spec_witness :
    '/' ∉ ("A" : String).data ∧ '/' ∉ ("T" : String).data ∧ '/' ∉ ("1999" : String).data
    ∧ ((("1999" : String) = "" →
          fileNameFromBookEntry ⟨"T", "A", "1999", "", "pdf", ""⟩ = "A" ++ " - " ++ "T")
      ∧ (("1999" : String) ≠ "" →
          fileNameFromBookEntry ⟨"T", "A", "1999", "", "pdf", ""⟩
            = "A" ++ " - " ++ "T" ++ " (" ++ "1999" ++ ")")
      ∧ (∀ c : BookEntry, '/' ∉ (fileNameFromBookEntry c).data)
      ∧ fileNameFromBookEntry ⟨"C", "A/B", "", "", "pdf", ""⟩ = "AB - C") :=
  ⟨by decide, by decide, by decide,
    fileNameFromBookEntry_spec ⟨"T", "A", "1999", "", "pdf", ""⟩
      (by decide) (by decide) (by decide)⟩

/-! ### Format normalization -/

/-- C6: the format score of a book is the single weight-table lookup of its
extension normalized by deleting every non-alphanumeric character (punctuation
and underscores), so two extensions with the same normalized form always get
the same weight; in particular `pdf`, `.pdf` and the upstream-lowercased `PDF`
all normalize to the token `pdf`, and an extension whose normalized form is
not in the table gets weight 0. -/
theorem formatWeight_normalization (prefs : String) (b1 b2 : BookEntry)
    (h : cleanExtension b1.extension = cleanExtension b2.extension) :
    bookFormatWeight prefs b1 = bookFormatWeight prefs b2
    ∧ (∀ b : BookEntry, bookFormatWeight prefs b = formatWeights prefs (cleanExtension b.extension))
    ∧ cleanExtension "pdf" = "pdf"
    ∧ cleanExtension ".pdf" = "pdf"
    ∧ cleanExtension (lowerAscii "PDF") = "pdf"
    ∧ (∀ s : String, cleanExtension s ∉ parseLowerCaseArray prefs →
        formatWeights prefs (cleanExtension s) = 0) := by
  refine ⟨?_, fun b => rfl, by decide, by decide, by decide,
    fun s hs => buildWeightTable_absent _ _ hs⟩
  unfold bookFormatWeight
  rw [h]

/-- Witness for the C6 theorem at the preference string "pdf, epub" and books
with extensions `.pdf` and `pdf`. -/
theorem formatWeight_normalization_witness :
    cleanExtension (BookEntry.extension ⟨"T", "A", "", "", ".pdf", ""⟩)
      = cleanExtension (BookEntry.extension ⟨"T", "A", "", "", "pdf", ""⟩)
    ∧ (bookFormatWeight "pdf, epub" ⟨"T", "A", "", "", ".pdf", ""⟩
        = bookFormatWeight "pdf, epub" ⟨"T", "A", "", "", "pdf", ""⟩
      ∧ (∀ b : BookEntry,
          bookFormatWeight "pdf, epub" b = formatWeights "pdf, epub" (cleanExtension b.extension))
      ∧ cleanExtension "pdf" = "pdf"
      ∧ cleanExtension ".pdf" = "pdf"
      ∧ cleanExtension (lowerAscii "PDF") = "pdf"
      ∧ (∀ s : String, cleanExtension s ∉ parseLowerCaseArray "pdf, epub" →
          formatWeights "pdf, epub" (cleanExtension s) = 0)) :=
  ⟨by decide,
    formatWeight_normalization "pdf, epub" ⟨"T", "A", "", "", ".pdf", ""⟩
      ⟨"T", "A", "", "", "pdf", ""⟩ (by decide)⟩

/-! ### Collision-free file naming -/

theorem candidateName_zero (name extension : String) :
    candidateName name extension 0 = name ++ "." ++ extension := rfl

theorem candidateName_one (name extension : String) :
    candidateName name extension 1 = name ++ "-2." ++ extension := by
  have h2 : toString ((1 : Nat) + 1) = "2" := by decide
  unfold candidateName
  rw [if_neg (show ¬ (1 : Nat) = 0 by decide), h2]
  apply String.ext
  simp only [String.data_append]
  simp

theorem candidateName_two (name extension : String) :
    candidateName name extension 2 = name ++ "-3." ++ extension := by
  have h3 : toString ((2 : Nat) + 1) = "3" := by decide
  unfold candidateName
  rw [if_neg (show ¬ (2 : Nat) = 0 by decide), h3]
  apply String.ext
  simp only [String.data_append]
  simp

/-- C5: `buildFileName` returns the first candidate of the probe order
`name.ext`, `name-2.ext`, `name-3.ext`, ... that does not already exist in the
target directory; in particular, a free base name is returned as is, if only
the base name exists the result is `name-2.ext`, and if `name.ext` and
`name-2.ext` both exist while `name-3.ext` is free the result is
`name-3.ext`. -/
theorem buildFileName_first_free (ex : String → Bool) (name extension : String)
    (h : ∃ k, ex (candidateName name extension k) = false) :
    (∃ k, buildFileName ex name extension h = candidateName name extension k
      ∧ ex (candidateName name extension k) = false
      ∧ ∀ j, j < k → ex (candidateName name extension j) = true)
    ∧ (ex (name ++ "." ++ extension) = false →
        buildFileName ex name extension h = name ++ "." ++ extension)
    ∧ (ex (name ++ "." ++ extension) = true → ex (name ++ "-2." ++ extension) = false →
        buildFileName ex name extension h = name ++ "-2." ++ extension)
    ∧ (ex (name ++ "." ++ extension) = true → ex (name ++ "-2." ++ extension) = true →
        ex (name ++ "-3." ++ extension) = false →
        buildFileName ex name extension h = name ++ "-3." ++ extension) := by
  refine ⟨⟨Nat.find h, rfl, Nat.find_spec h, fun j hj => ?_⟩, ?_, ?_, ?_⟩
  · have hm := Nat.find_min h hj
    simpa using hm
  · intro h0
    unfold buildFileName
    rw [(Nat.find_eq_zero h).mpr (by rw [candidateName_zero]; exact h0), candidateName_zero]
  · intro h0 h1
    unfold buildFileName
    have hf : Nat.find h = 1 := by
      rw [Nat.find_eq_iff h]
      refine ⟨by rw [candidateName_one]; exact h1, ?_⟩
      intro n hn
      have hn0 : n = 0 := by omega
      subst hn0
      rw [candidateName_zero, h0]
      simp
    rw [hf, candidateName_one]
  · intro h0 h1 h2
    unfold buildFileName
    have hf : Nat.find h = 2 := by
      rw [Nat.find_eq_iff h]
      refine ⟨by rw [candidateName_two]; exact h2, ?_⟩
      intro n hn
      have hn01 : n = 0 ∨ n = 1 := by omega
      rcases hn01 with rfl | rfl
      · rw [candidateName_zero, h0]
        simp
      · rw [candidateName_one, h1]
        simp
    rw [hf, candidateName_two]

/-- Witness for the C5 theorem: in a directory that already holds exactly the
file Doe, J - Book.pdf, the next request for the same base name and extension
yields Doe, J - Book-2.pdf. -/
theorem buildFileName_first_free_witness :
    (∃ k, (fun s => s == "Doe, J - Book.pdf") (candidateName "Doe, J - Book" "pdf" k) = false)
    ∧ ((fun s => s == "Doe, J - Book.pdf") ("Doe, J - Book" ++ "." ++ "pdf") = true →
        (fun s => s == "Doe, J - Book.pdf") ("Doe, J - Book" ++ "-2." ++ "pdf") = false →
        buildFileName (fun s => s == "Doe, J - Book.pdf") "Doe, J - Book" "pdf" ⟨1, by decide⟩
          = "Doe, J - Book" ++ "-2." ++ "pdf") :=
  ⟨⟨1, by decide⟩,
    (buildFileName_first_free (fun s => s == "Doe, J - Book.pdf") "Doe, J - Book" "pdf"
      ⟨1, by decide⟩).2.2.1⟩

/-- C10: under the precondition that some probe candidate is free (the exact
condition under which the unbounded while-true loop of books.ts lines 113-120
terminates), the embedded `buildFileName` is a total function and returns the
first free candidate: its result is a candidate that does not exist, and
every free candidate has an index at least as large. -/
theorem buildFileName_total (ex : String → Bool) (name extension : String)
    (h : ∃ k, ex (candidateName name extension k) = false) :
    ex (buildFileName ex name extension h) = false
    ∧ ∃ k, buildFileName ex name extension h = candidateName name extension k
        ∧ ex (candidateName name extension k) = false
        ∧ ∀ j, ex (candidateName name extension j) = false → k ≤ j :=
  ⟨Nat.find_spec h, Nat.find h, rfl, Nat.find_spec h, fun _ hj => Nat.find_min' h hj⟩

/-- Witness for the C10 theorem in a directory holding Doe, J - Book.pdf and
Doe, J - Book-2.pdf. -/
theorem buildFileName_total_witness :
    (∃ k, (fun s => s == "Doe, J - Book.pdf" || s == "Doe, J - Book-2.pdf")
        (candidateName "Doe, J - Book" "pdf" k) = false)
    ∧ ((fun s => s == "Doe, J - Book.pdf" || s == "Doe, J - Book-2.pdf")
        (buildFileName (fun s => s == "Doe, J - Book.pdf" || s == "Doe, J - Book-2.pdf")
          "Doe, J - Book" "pdf" ⟨2, by decide⟩) = false
      ∧ ∃ k, buildFileName (fun s => s == "Doe, J - Book.pdf" || s == "Doe, J - Book-2.pdf")
            "Doe, J - Book" "pdf" ⟨2, by decide⟩
          = candidateName "Doe, J - Book" "pdf" k
        ∧ (fun s => s == "Doe, J - Book.pdf" || s == "Doe, J - Book-2.pdf")
            (candidateName "Doe, J - Book" "pdf" k) = false
        ∧ ∀ j, (fun s => s == "Doe, J - Book.pdf" || s == "Doe, J - Book-2.pdf")
            (candidateName "Doe, J - Book" "pdf" j) = false → k ≤ j) :=
  ⟨⟨2, by decide⟩,
    buildFileName_total (fun s => s == "Doe, J - Book.pdf" || s == "Doe, J - Book-2.pdf")
      "Doe, J - Book" "pdf" ⟨2, by decide⟩⟩

/-! ### Download failure handling -/

theorem isFailureToast_progress (t : String) :
    isFailureToast (DlEvent.progressToast t) = false := rfl

theorem isFailureToast_fetch (u : String) :
    isFailureToast (DlEvent.fetchIssued u) = false := rfl

theorem isFailureToast_written (p : String) :
    isFailureToast (DlEvent.fileWritten p) = false := rfl

theorem isFailureToast_success (m : String) :
    isFailureToast (DlEvent.successToast m) = false := rfl

theorem isFailureToast_failureEvent (e : JsError) : isFailureToast (failureEvent e) = true := by
  unfold failureEvent
  by_cases hc : (e.isFetchError && e.code == "CERT_HAS_EXPIRED") = true
  · rw [if_pos hc]
    rfl
  · rw [if_neg hc]
    rfl

/-- C7: every failure raised inside a download operation is converted into
exactly one user-visible failure notification. For both operations, the
failure toasts among the emitted events are exactly the image of the first
error of the run (none on success, so a failure yields one notification and a
success none); the embedded operations are total functions into event lists,
so nothing propagates to the caller; an expired-certificate fetch error gets
the remediation message suggesting a different gateway or the TLS-ignore
setting, and every other error gets the generic report carrying the
underlying message. Both outcomes are terminal: no retry event exists in the
emitted list, which ends at the single failure toast. -/
theorem download_failure_handling (url : String) (book : BookEntry)
    (downloadPath folder : String) (ex : String → Bool)
    (fetchResult : Except JsError Nat) (writeResult : Option JsError)
    (h : ∃ k, ex (candidateName (fileNameFromBookEntry book) (lowerAscii book.extension) k)
      = false)
    (hfolder : folder ≠ "") :
    (downloadBookToDefaultDirectory url book downloadPath ex fetchResult writeResult h).filter
        isFailureToast
      = ((firstError fetchResult writeResult).map failureEvent).toList
    ∧ (downloadBookToLocation url book (some folder) ex fetchResult writeResult h).filter
        isFailureToast
      = ((firstError fetchResult writeResult).map failureEvent).toList
    ∧ (∀ e : JsError, e.isFetchError = true → e.code = "CERT_HAS_EXPIRED" →
        failureEvent e = DlEvent.failureToast "Download Failed" certExpiredMessage)
    ∧ (∀ e : JsError, ¬ (e.isFetchError = true ∧ e.code = "CERT_HAS_EXPIRED") →
        failureEvent e = DlEvent.failureToast "Download Failed" e.message) := by
  refine ⟨?_, ?_, ?_, ?_⟩
  · unfold downloadBookToDefaultDirectory firstError
    cases fetchResult with
    | error e =>
      simp [List.filter, isFailureToast_failureEvent e, isFailureToast_progress,
        isFailureToast_fetch]
    | ok n =>
      cases writeResult with
      | some e =>
        simp [List.filter, isFailureToast_failureEvent e, isFailureToast_progress,
          isFailureToast_fetch]
      | none =>
        simp [List.filter, isFailureToast_progress, isFailureToast_fetch,
          isFailureToast_written, isFailureToast_success]
  · simp only [downloadBookToLocation]
    rw [if_neg hfolder]
    unfold firstError
    cases fetchResult with
    | error e =>
      simp [List.filter, isFailureToast_failureEvent e, isFailureToast_progress,
        isFailureToast_fetch]
    | ok n =>
      cases writeResult with
      | some e =>
        simp [List.filter, isFailureToast_failureEvent e, isFailureToast_progress,
          isFailureToast_fetch]
      | none =>
        simp [List.filter, isFailureToast_progress, isFailureToast_fetch,
          isFailureToast_written, isFailureToast_success]
  · intro e h1 h2
    unfold failureEvent
    rw [if_pos (by simp [h1, h2])]
  · intro e hne
    unfold failureEvent
    rw [if_neg]
    simp only [Bool.and_eq_true, beq_iff_eq]
    exact hne

/-- Witness for the C7 theorem: a fetch rejected with an expired-certificate
error in both download operations. -/
theorem download_failure_handling_witness :
    (∃ k, (fun _ : String => false)
        (candidateName (fileNameFromBookEntry ⟨"T", "A", "", "", "pdf", ""⟩)
          (lowerAscii (BookEntry.extension ⟨"T", "A", "", "", "pdf", ""⟩)) k) = false)
    ∧ ("/f" : String) ≠ ""
    ∧ ((downloadBookToDefaultDirectory "u" ⟨"T", "A", "", "", "pdf", ""⟩ "/d"
          (fun _ => false) (Except.error ⟨true, "CERT_HAS_EXPIRED", "m"⟩) none
          ⟨0, rfl⟩).filter isFailureToast
        = ((firstError (Except.error ⟨true, "CERT_HAS_EXPIRED", "m"⟩) none).map
            failureEvent).toList
      ∧ (downloadBookToLocation "u" ⟨"T", "A", "", "", "pdf", ""⟩ (some "/f")
          (fun _ => false) (Except.error ⟨true, "CERT_HAS_EXPIRED", "m"⟩) none
          ⟨0, rfl⟩).filter isFailureToast
        = ((firstError (Except.error ⟨true, "CERT_HAS_EXPIRED", "m"⟩) none).map
            failureEvent).toList
      ∧ (∀ e : JsError, e.isFetchError = true → e.code = "CERT_HAS_EXPIRED" →
          failureEvent e = DlEvent.failureToast "Download Failed" certExpiredMessage)
      ∧ (∀ e : JsError, ¬ (e.isFetchError = true ∧ e.code = "CERT_HAS_EXPIRED") →
          failureEvent e = DlEvent.failureToast "Download Failed" e.message)) :=
  ⟨⟨0, rfl⟩, by decide,
    download_failure_handling "u" ⟨"T", "A", "", "", "pdf", ""⟩ "/d" "/f"
      (fun _ => false) (Except.error ⟨true, "CERT_HAS_EXPIRED", "m"⟩) none
      ⟨0, rfl⟩ (by decide)⟩

/-- C8: when the folder picker yields no path, downloadBookToLocation stops
silently: the emitted event list is empty, so no progress toast is shown, no
fetch is issued, no file is written and no failure notification appears. -/
theorem downloadToLocation_cancelled (url : String) (book : BookEntry) (ex : String → Bool)
    (fetchResult : Except JsError Nat) (writeResult : Option JsError)
    (h : ∃ k, ex (candidateName (fileNameFromBookEntry book) (lowerAscii book.extension) k)
      = false) :
    downloadBookToLocation url book none ex fetchResult writeResult h = [] := rfl

/-- Witness for the C8 theorem at a concrete cancelled invocation. -/
theorem downloadToLocation_cancelled_witness :
    (∃ k, (fun _ : String => false)
        (candidateName (fileNameFromBookEntry ⟨"T", "A", "", "", "pdf", ""⟩)
          (lowerAscii (BookEntry.extension ⟨"T", "A", "", "", "pdf", ""⟩)) k) = false)
    ∧ downloadBookToLocation "u" ⟨"T", "A", "", "", "pdf", ""⟩ none (fun _ => false)
        (Except.ok 1) none ⟨0, rfl⟩ = [] :=
  ⟨⟨0, rfl⟩,
    downloadToLocation_cancelled "u" ⟨"T", "A", "", "", "pdf", ""⟩ (fun _ => false)
      (Except.ok 1) none ⟨0, rfl⟩⟩
